import Mathlib

/-!
Verification of `dev_server.py`, a local development HTTP server with
live-reload. Python byte strings are modelled as `List Nat` (byte values);
Python `str` values that stay ASCII are modelled as Lean `String` or as
their byte lists. Filesystem paths produced by `str(Path(dirpath) / name)`
are modelled as component lists (`List String`), a faithful abstraction of
"/"-joined path strings. Python `dict` values are modelled as association
lists built with an insert-or-replace operation, compared with dictionary
(lookup) equality.
-/

namespace DevServer

/-- Bytes of an ASCII Lean string (used to transcribe the literals of the
source file). -/
def strBytes (s : String) : List Nat := s.data.map Char.toNat

/-- `INJECT_MARKER = b"__dev_server_injected__"` from the source. -/
def INJECT_MARKER : List Nat := strBytes "__dev_server_injected__"

/-- The text of the Python bytes literal `INJECT_SNIPPET`, split after
every newline, exactly as evaluated by Python (the literal's `\\\\` escape
pairs denote single backslash characters; the bytes are all ASCII).
`INJECT_SNIPPET` below is the concatenation of the byte lists of these
chunks; the chunked form keeps kernel evaluation shallow. -/
def snippetChunks : List String := [
  "\n",
  "<script id=\"__dev_server_injected__\">\n",
  "(() => \x7b\n",
  "  // Auto-reload when a file changes on disk (SSE).\n",
  "  const url = new URL(location.href);\n",
  "  if (url.searchParams.get(\"noreload\") !== \"1\") \x7b\n",
  "    const connect = () => \x7b\n",
  "      const es = new EventSource(\"/__livereload\");\n",
  "      es.addEventListener(\"reload\", () => location.reload());\n",
  "      es.onerror = () => \x7b\n",
  "        try \x7b es.close(); \x7d catch \x7b\x7d\n",
  "        setTimeout(connect, 500);\n",
  "      \x7d;\n",
  "    \x7d;\n",
  "    connect();\n",
  "  \x7d\n",
  "\n",
  "  // Inspect mode: click any element to copy a selector (useful for asking Codex to edit specific parts).\n",
  "  if (url.searchParams.get(\"inspect\") === \"1\") \x7b\n",
  "    const cssEscape = (s) => (window.CSS && CSS.escape) ? CSS.escape(s) : String(s).replace(/[^a-zA-Z0-9_-]/g, (m) => \"\\\\%s\".replace(\"%s\", m));\n",
  "    const getSelector = (el) => \x7b\n",
  "      if (!el || el.nodeType !== 1) return \"\";\n",
  "      if (el.id) return \"#\" + cssEscape(el.id);\n",
  "      const parts = [];\n",
  "      let cur = el;\n",
  "      while (cur && cur.nodeType === 1 && cur !== document.body) \x7b\n",
  "        let part = cur.tagName.toLowerCase();\n",
  "        const classes = cur.classList ? Array.from(cur.classList).filter(Boolean) : [];\n",
  "        if (classes.length) part += \".\" + classes.slice(0, 2).map(cssEscape).join(\".\");\n",
  "        const parent = cur.parentElement;\n",
  "        if (parent) \x7b\n",
  "          const sameTag = Array.from(parent.children).filter((c) => c.tagName === cur.tagName);\n",
  "          if (sameTag.length > 1) part += `:nth-of-type($\x7bsameTag.indexOf(cur) + 1\x7d)`;\n",
  "        \x7d\n",
  "        parts.unshift(part);\n",
  "        cur = cur.parentElement;\n",
  "      \x7d\n",
  "      return \"body > \" + parts.join(\" > \");\n",
  "    \x7d;\n",
  "\n",
  "    const style = document.createElement(\"style\");\n",
  "    style.textContent = `\n",
  "      #__dev_inspect_tip \x7b position: fixed; left: 12px; bottom: 12px; z-index: 2147483647;\n",
  "        font: 12px/1.2 ui-monospace, SFMono-Regular, Menlo, Monaco, Consolas, \"Liberation Mono\", \"Courier New\", monospace;\n",
  "        color: #0b0b0b; background: rgba(180, 249, 192, 0.92); border: 1px solid rgba(0,0,0,.25);\n",
  "        padding: 10px 12px; border-radius: 10px; max-width: 70vw; box-shadow: 0 8px 30px rgba(0,0,0,.35);\n",
  "      \x7d\n",
  "      #__dev_inspect_tip code \x7b user-select: all; \x7d\n",
  "      #__dev_inspect_hl \x7b position: fixed; z-index: 2147483646; pointer-events: none;\n",
  "        outline: 2px solid rgba(180, 249, 192, 0.95); box-shadow: 0 0 0 1px rgba(0,0,0,.35) inset;\n",
  "      \x7d\n",
  "    `;\n",
  "    document.head.appendChild(style);\n",
  "\n",
  "    const tip = document.createElement(\"div\");\n",
  "    tip.id = \"__dev_inspect_tip\";\n",
  "    tip.innerHTML = `<div style=\"margin-bottom:6px;\"><b>Inspect mode</b>: click anything to copy its selector</div><code>(none)</code>`;\n",
  "    document.body.appendChild(tip);\n",
  "\n",
  "    const hl = document.createElement(\"div\");\n",
  "    hl.id = \"__dev_inspect_hl\";\n",
  "    document.body.appendChild(hl);\n",
  "\n",
  "    const updateHL = (el) => \x7b\n",
  "      if (!el || el === document.documentElement || el === document.body) \x7b\n",
  "        hl.style.display = \"none\";\n",
  "        return;\n",
  "      \x7d\n",
  "      const r = el.getBoundingClientRect();\n",
  "      hl.style.display = \"block\";\n",
  "      hl.style.left = r.left + \"px\";\n",
  "      hl.style.top = r.top + \"px\";\n",
  "      hl.style.width = r.width + \"px\";\n",
  "      hl.style.height = r.height + \"px\";\n",
  "    \x7d;\n",
  "\n",
  "    let lastEl = null;\n",
  "    window.addEventListener(\"mousemove\", (e) => \x7b\n",
  "      const el = document.elementFromPoint(e.clientX, e.clientY);\n",
  "      if (el && el !== lastEl) \x7b\n",
  "        lastEl = el;\n",
  "        updateHL(el);\n",
  "      \x7d\n",
  "    \x7d, true);\n",
  "\n",
  "    window.addEventListener(\"click\", async (e) => \x7b\n",
  "      e.preventDefault();\n",
  "      e.stopPropagation();\n",
  "      const el = document.elementFromPoint(e.clientX, e.clientY);\n",
  "      const sel = getSelector(el);\n",
  "      tip.querySelector(\"code\").textContent = sel || \"(none)\";\n",
  "      try \x7b await navigator.clipboard.writeText(sel); \x7d catch \x7b\x7d\n",
  "    \x7d, true);\n",
  "  \x7d\n",
  "\x7d)();\n",
  "</script>\n"]

/-- The byte lists of the snippet chunks. -/
def snippetChunkBytes : List (List Nat) := snippetChunks.map strBytes

/-- `INJECT_SNIPPET`: the exact 3776 bytes of the Python bytes literal. -/
def INJECT_SNIPPET : List Nat := snippetChunkBytes.flatten

/-- ASCII lowercasing of one byte, the per-byte action of Python
`bytes.lower()` (only `A`-`Z`, bytes 65-90, are changed). -/
def byteLower (b : Nat) : Nat := if 65 ≤ b ∧ b ≤ 90 then b + 32 else b

/-- Python `data.lower()` on a byte string. -/
def lowerBytes (data : List Nat) : List Nat := data.map byteLower

/-- Bytes of the pattern `b"</body>"` searched by `_serve_html`. -/
def bodyTag : List Nat := strBytes "</body>"

/-- Python `bytes.rfind` scanning start positions from `k` down to `0`,
returning the first (hence highest) position where `pat` occurs. -/
def rfindDown (pat hay : List Nat) : Nat → Option Nat
  | 0 => if pat.isPrefixOf hay then some 0 else none
  | k + 1 =>
      if pat.isPrefixOf (hay.drop (k + 1)) then some (k + 1)
      else rfindDown pat hay k

/-- Python `hay.rfind(pat)`: the highest start index of an occurrence of
`pat` in `hay` (`none` standing for the return value `-1`). -/
def rfind (pat hay : List Nat) : Option Nat := rfindDown pat hay hay.length

/-- The body computation of `DevHandler._serve_html`: if `INJECT_MARKER`
does not occur in `data`, let `idx = data.lower().rfind(b"</body>")`; when
`idx != -1` the snippet is spliced at `idx`, otherwise appended. -/
def injectBody (data : List Nat) : List Nat :=
  if INJECT_MARKER <:+: data then data
  else
    match rfind bodyTag (lowerBytes data) with
    | some idx => data.take idx ++ INJECT_SNIPPET ++ data.drop idx
    | none => data ++ INJECT_SNIPPET

/-- The response assembled by `_serve_html` after a successful read:
status, the three headers it sends, and the bytes written to the socket
(empty for `head_only`). -/
structure HtmlResponse where
  status : Nat
  contentType : String
  cacheControl : String
  contentLength : Nat
  body : List Nat
  deriving Repr, DecidableEq

/-- `DevHandler._serve_html` on file bytes `data` (the read succeeded):
200, `text/html; charset=utf-8`, `no-cache`, `Content-Length` equal to the
length of the injected document, body omitted when `head_only`. -/
def serveHtmlResponse (data : List Nat) (headOnly : Bool) : HtmlResponse :=
  let d := injectBody data
  { status := 200
    contentType := "text/html; charset=utf-8"
    cacheControl := "no-cache"
    contentLength := d.length
    body := if headOnly then [] else d }

/-- Result of `_serve_html` including the `OSError` branch: reading the
file raised, answered by `send_error(404)`. -/
inductive ServeResult where
  | ok (r : HtmlResponse)
  | notFound404
  deriving Repr, DecidableEq

/-- `DevHandler._serve_html` with the read modelled as `Option`. -/
def serveHtml (readResult : Option (List Nat)) (headOnly : Bool) : ServeResult :=
  match readResult with
  | none => .notFound404
  | some data => .ok (serveHtmlResponse data headOnly)

/-- Number of start positions at which `pat` occurs in `hay` (counts each
suffix of `hay` of which `pat` is a prefix). -/
def occCount (pat : List Nat) : List Nat → Nat
  | [] => if pat = [] then 1 else 0
  | h :: t => (if pat <+: h :: t then 1 else 0) + occCount pat t

/-! ### The `/__livereload` SSE stream (`DevHandler._handle_livereload`) -/

/-- The bytes written on connect. The Python source spells the literal
`b": connected\\n\\n"`, whose `\\n` pairs are BACKSLASH plus `n`
characters, not newlines; this string reproduces those exact bytes. -/
def ssePrelude : String := ": connected\\n\\n"

/-- Payload written when `wait_for`/`changed` observed a change: the
f-string `f"event: reload\\ndata: {last_id}\\n\\n"` (again literal
backslash-`n` pairs, not newlines). -/
def sseReload (lastId : Nat) : String :=
  "event: reload\\ndata: " ++ toString lastId ++ "\\n\\n"

/-- Payload written on a 15-second timeout with no change:
`b"event: ping\\ndata: 0\\n\\n"` (literal backslash-`n` pairs). -/
def ssePing : String := "event: ping\\ndata: 0\\n\\n"

/-- One iteration of the `_handle_livereload` wait loop, as observed by the
connection: either `wait_for` returned true with the state's new
`change_id`, or it timed out. -/
inductive WaitOutcome where
  | changed (newId : Nat)
  | timedOut
  deriving Repr, DecidableEq

/-- The payload written for one loop iteration. -/
def ssePayload : WaitOutcome → String
  | .changed i => sseReload i
  | .timedOut => ssePing

/-- Everything `_handle_livereload` writes to the socket after the headers,
for a connection whose wait loop runs through `outcomes`. -/
def livereloadStream (outcomes : List WaitOutcome) : String :=
  ssePrelude ++ String.join (outcomes.map ssePayload)

/-- Modelled from the spec: the SSE reload event the spec requires,
`event: reload\ndata: <id>\n\n` with genuine newline characters. -/
def specSseReload (i : Nat) : String := "event: reload\ndata: " ++ toString i ++ "\n\n"

/-- Modelled from the spec: the SSE ping event `event: ping\ndata: 0\n\n`
with genuine newline characters. -/
def specSsePing : String := "event: ping\ndata: 0\n\n"

/-! ### `LiveReloadState` -/

/-- `LiveReloadState`: the shared counter and, abstracting the condition
variable, the ids of the threads currently blocked in a wait on it. -/
structure LiveReloadState where
  change_id : Nat
  waiters : List Nat
  deriving Repr, DecidableEq

/-- `LiveReloadState.__init__`: `change_id = 0`, nobody waiting. -/
def LiveReloadState.init : LiveReloadState := { change_id := 0, waiters := [] }

/-- `bump()`, one atomic step (the Python body runs under `self.cond`):
increment `change_id`, `notify_all()` (every waiter is woken, none remain),
and return the new value. Result: (new state, woken threads, return
value). -/
def LiveReloadState.bump (s : LiveReloadState) : LiveReloadState × List Nat × Nat :=
  ({ change_id := s.change_id + 1, waiters := [] }, s.waiters, s.change_id + 1)

/-- The operations that touch the shared state: a watcher `bump`, or an SSE
handler thread starting to wait on the condition. -/
inductive StateOp where
  | bump
  | registerWait (tid : Nat)
  deriving Repr, DecidableEq

/-- Effect of one operation on the shared state. -/
def LiveReloadState.step (s : LiveReloadState) : StateOp → LiveReloadState
  | .bump => (LiveReloadState.bump s).1
  | .registerWait t => { s with waiters := s.waiters ++ [t] }

/-! ### Snapshots (`_snapshot_tree`) and the watcher (`_watch_tree`)

Paths `str(Path(dirpath) / name)` are modelled as component lists
(`List String`); the Python dict is an association list built with
insert-or-replace, compared by lookup. -/

/-- A snapshot: file path ↦ `(st_mtime_ns, st_size)`. -/
abbrev Snap := List (List String × (Nat × Nat))

/-- Dict lookup. -/
def dlookup (s : Snap) (k : List String) : Option (Nat × Nat) :=
  (s.find? (fun e => decide (e.1 = k))).map (·.2)

/-- Dict assignment `snap[k] = v`: replace the value if the key is present,
otherwise append the new binding. -/
def dinsert (s : Snap) (k : List String) (v : Nat × Nat) : Snap :=
  if (s.find? (fun e => decide (e.1 = k))).isSome then
    s.map (fun e => if e.1 = k then (k, v) else e)
  else s ++ [(k, v)]

/-- Python dict equality `cur == prev`: the two snapshots agree on the
lookup of every key present in either. -/
def snapEqB (a b : Snap) : Bool :=
  a.all (fun e => dlookup a e.1 == dlookup b e.1) &&
  b.all (fun e => dlookup a e.1 == dlookup b e.1)

/-- Result of `p.stat()` on one file: success with `(st_mtime_ns, st_size)`,
a `FileNotFoundError` (the only exception `_snapshot_tree` catches), or any
other `OSError`. -/
inductive StatResult where
  | ok (mtimeNs size : Nat)
  | fileNotFound
  | otherError
  deriving Repr, DecidableEq

/-- A filesystem subtree as seen by `os.walk`: named regular files (with
the outcome their `stat` would have) and named directories. -/
inductive FSNode where
  | file (name : String) (st : StatResult)
  | dir (name : String) (children : List FSNode)

/-- The walk of `_snapshot_tree`: skip files named `.DS_Store` or
`recording.mov` before stat-ing; insert `(mtime_ns, size)` for a
successful stat; `continue` on `FileNotFoundError`; any other `OSError`
propagates (`.error`). Directories named `.git` or `refs` are pruned from
`dirnames` before descent. `os.walk` visits each directory's files before
its subdirectories while this walk processes siblings in listed order; the
resulting dict does not depend on that order, and every claim compares
snapshots by dict lookup. -/
def snapWalk : List String → List FSNode → Snap → Except Unit Snap
  | _, [], acc => .ok acc
  | path, .file name st :: rest, acc =>
      if name = ".DS_Store" ∨ name = "recording.mov" then snapWalk path rest acc
      else
        match st with
        | .ok m sz => snapWalk path rest (dinsert acc (path ++ [name]) (m, sz))
        | .fileNotFound => snapWalk path rest acc
        | .otherError => .error ()
  | path, .dir name cs :: rest, acc =>
      if name = ".git" ∨ name = "refs" then snapWalk path rest acc
      else
        match snapWalk (path ++ [name]) cs acc with
        | .error e => .error e
        | .ok acc2 => snapWalk path rest acc2

/-- `_snapshot_tree(root)` on the tree of children of `root`. -/
def snapshotTree (root : List String) (tree : List FSNode) : Except Unit Snap :=
  snapWalk root tree []

/-- One poll cycle of `_watch_tree` after the sleep, given the stored
previous snapshot, the freshly taken one and the shared state:
`if cur != prev: prev = cur; state.bump()`. Result: (new stored snapshot,
new state, number of `bump` calls made in this cycle). -/
def watchCycle (prev cur : Snap) (st : LiveReloadState) : Snap × LiveReloadState × Nat :=
  if snapEqB cur prev = false then (cur, (LiveReloadState.bump st).1, 1)
  else (prev, st, 0)

/-! ### Request dispatch (`DevHandler.do_GET` / `do_HEAD`)

The local filesystem is a static map from path strings to entries, so a
read that follows a successful `is_file()` check succeeds; `translate_path`
(standard-library code, not in this repository) is an arbitrary function
parameter. -/

/-- What a local path names: a directory, a regular file with its bytes, or
nothing. -/
inductive FSEntry where
  | dir
  | file (content : List Nat)
  deriving Repr, DecidableEq

/-- `urllib.parse.urlsplit(target).path` for an origin-form request target:
everything before the first `?` (query) or `#` (fragment). -/
def urlPathOf (target : String) : String :=
  ⟨target.data.takeWhile (fun c => ¬ (c = '?' ∨ c = '#'))⟩

/-- Python `parsed.path.endswith("/")`. -/
def endsSlash (p : String) : Bool := p.data.getLast? == some '/'

/-- `Path(local_path) / name`: drop trailing slashes, then append
`/name`. -/
def joinPath (p name : String) : String :=
  ⟨(p.data.reverse.dropWhile (fun c => c = '/')).reverse ++ '/' :: name.data⟩

/-- The last nonempty path component, as `pathlib` computes `Path(p).name`
(trailing slashes ignored). -/
def lastComponent (p : String) : List Char :=
  ((p.data.reverse.dropWhile (fun c => c = '/')).takeWhile (fun c => c ≠ '/')).reverse

/-- `Path(p).suffix`: the part of the name from its last dot, when that dot
is neither the first nor the last character of the name; else empty. -/
def pathSuffix (p : String) : List Char :=
  let name := lastComponent p
  let after := name.reverse.takeWhile (fun c => c ≠ '.')
  if after.length = name.length then []
  else
    let i := name.length - after.length - 1
    if 0 < i ∧ i < name.length - 1 then name.drop i else []

/-- `local_path.suffix.lower() in {".html", ".htm"}` (ASCII lowering; every
suffix the comparison can match is ASCII). -/
def htmlExt (p : String) : Bool :=
  let sfx := lowerBytes ((pathSuffix p).map Char.toNat)
  sfx == strBytes ".html" || sfx == strBytes ".htm"

/-- Outcome of dispatching one request in `do_GET`/`do_HEAD`. -/
inductive HandlerResult where
  | livereload
  | methodNotAllowed405
  | redirect301 (location : String)
  | html (r : HtmlResponse)
  | fallback
  deriving Repr, DecidableEq

/-- `DevHandler.do_GET`: the `/__livereload` check on the split path, then
directory redirect / index serving / HTML-file serving, with
`super().do_GET()` as `.fallback`. -/
def doGET (fs : String → Option FSEntry) (translate : String → String)
    (target : String) : HandlerResult :=
  let p := urlPathOf target
  if p = "/__livereload" then .livereload
  else
    let lp := translate p
    match fs lp with
    | some .dir =>
        if endsSlash p = false then .redirect301 (p ++ "/")
        else
          match fs (joinPath lp "index.html") with
          | some (.file c) => .html (serveHtmlResponse c false)
          | _ =>
            match fs (joinPath lp "index.htm") with
            | some (.file c) => .html (serveHtmlResponse c false)
            | _ => .fallback
    | some (.file c) => if htmlExt lp then .html (serveHtmlResponse c false) else .fallback
    | none => .fallback

/-- `DevHandler.do_HEAD`: as `do_GET` but `/__livereload` is answered with
`send_error(405)` and HTML responses carry no body. -/
def doHEAD (fs : String → Option FSEntry) (translate : String → String)
    (target : String) : HandlerResult :=
  let p := urlPathOf target
  if p = "/__livereload" then .methodNotAllowed405
  else
    let lp := translate p
    match fs lp with
    | some .dir =>
        if endsSlash p = false then .redirect301 (p ++ "/")
        else
          match fs (joinPath lp "index.html") with
          | some (.file c) => .html (serveHtmlResponse c true)
          | _ =>
            match fs (joinPath lp "index.htm") with
            | some (.file c) => .html (serveHtmlResponse c true)
            | _ => .fallback
    | some (.file c) => if htmlExt lp then .html (serveHtmlResponse c true) else .fallback
    | none => .fallback

/-! ### Spec-side definitions and concrete sample inputs -/

/-- Modelled from the spec: erase from a tree every entry the snapshot
exclusion policy names — directories called `.git` or `refs` (with their
whole subtree) and files called `.DS_Store` or `recording.mov`. -/
def scrub : List FSNode → List FSNode
  | [] => []
  | .file name st :: rest =>
      if name = ".DS_Store" ∨ name = "recording.mov" then scrub rest
      else .file name st :: scrub rest
  | .dir name cs :: rest =>
      if name = ".git" ∨ name = "refs" then scrub rest
      else .dir name (scrub cs) :: scrub rest

/-- Erase every file whose stat would raise `FileNotFoundError`. -/
def dropEnoent : List FSNode → List FSNode
  | [] => []
  | .file name st :: rest =>
      if st = .fileNotFound then dropEnoent rest
      else .file name st :: dropEnoent rest
  | .dir name cs :: rest => .dir name (dropEnoent cs) :: dropEnoent rest

/-- Whether some file that the walk actually stats (not skipped by name,
not under a pruned directory) would raise a non-`FileNotFoundError`
`OSError`. -/
def hasReachableOtherError : List FSNode → Bool
  | [] => false
  | .file name st :: rest =>
      (if name = ".DS_Store" ∨ name = "recording.mov" then false
       else st == .otherError) || hasReachableOtherError rest
  | .dir name cs :: rest =>
      (if name = ".git" ∨ name = "refs" then false
       else hasReachableOtherError cs) || hasReachableOtherError rest

/-- `i` is the position of the LAST case-insensitive occurrence of
`</body>` in `data` (the position `data.lower().rfind(b"</body>")` is
specified to return when it is not `-1`). -/
def LastBodyTagOcc (data : List Nat) (i : Nat) : Prop :=
  bodyTag <+: (lowerBytes data).drop i ∧
  ∀ j, i < j → ¬ bodyTag <+: (lowerBytes data).drop j

/-- The claimed contract of serving an HTML file (GET) whose bytes do not
contain the marker: 200, the three headers, exact `Content-Length`, and
the snippet spliced at the last case-insensitive `</body>` (appended at
the end when there is none). -/
def injectionSpecProp (data : List Nat) : Prop :=
  (serveHtmlResponse data false).status = 200 ∧
  (serveHtmlResponse data false).contentType = "text/html; charset=utf-8" ∧
  (serveHtmlResponse data false).cacheControl = "no-cache" ∧
  (serveHtmlResponse data false).contentLength =
    ((serveHtmlResponse data false).body).length ∧
  (∀ i, LastBodyTagOcc data i →
    (serveHtmlResponse data false).body =
      data.take i ++ INJECT_SNIPPET ++ data.drop i) ∧
  ((∀ i, ¬ bodyTag <+: (lowerBytes data).drop i) →
    (serveHtmlResponse data false).body = data ++ INJECT_SNIPPET)

/-- A marker-free HTML sample with two case-variant closing body tags. -/
def sampleHtml : List Nat := strBytes "<html><body>hi</BoDy>x</bOdY>!</html>"

/-- A marker-free sample with no closing body tag at all. -/
def sampleNoBody : List Nat := strBytes "<p>plain</p>"

/-- A degenerate document consisting of the marker twice over. -/
def markerDoubled : List Nat := INJECT_MARKER ++ INJECT_MARKER

/-- A local filesystem whose root contains a directory named
`__livereload`. -/
def fsLr : String → Option FSEntry :=
  fun s => if s = "/__livereload" then some .dir else none

/-- A local filesystem with a directory `/sub` holding an `index.html`. -/
def fsSite : String → Option FSEntry :=
  fun s =>
    if s = "/sub" then some .dir
    else if s = "/sub/" then some .dir
    else if s = "/sub/index.html" then some (.file sampleHtml)
    else none

/-! ### Helper lemmas -/

lemma memOfGetLast {α : Type} {l : List α} {b : α} (h : l.getLast? = some b) :
    b ∈ l := by
  induction l with
  | nil => simp at h
  | cons x t ih =>
      cases t with
      | nil => simp_all
      | cons y t2 =>
          rw [List.getLast?_cons_cons] at h
          exact List.mem_cons_of_mem _ (ih h)

lemma prefixOfAppendLast {pat x y : List Nat} {b : Nat} (hb : x.getLast? = some b)
    (hbp : b ∉ pat) (h : pat <+: x ++ y) : pat <+: x := by
  by_cases hl : pat.length ≤ x.length
  · rw [List.prefix_iff_eq_take] at h ⊢
    rwa [List.take_append_eq_append_take, Nat.sub_eq_zero_of_le hl,
      List.take_zero, List.append_nil] at h
  · push_neg at hl
    have hx : x <+: pat := by
      rcases List.prefix_or_prefix_of_prefix (List.prefix_append x y) h with h1 | h2
      · exact h1
      · exact absurd h2.length_le (by omega)
    exact absurd (hx.subset (memOfGetLast hb)) hbp

lemma prefixOfAppendHead {pat d y : List Nat} {b : Nat} (hb : y.head? = some b)
    (hbp : b ∉ pat) (h : pat <+: d ++ y) : pat <+: d := by
  by_cases hl : pat.length ≤ d.length
  · rw [List.prefix_iff_eq_take] at h ⊢
    rwa [List.take_append_eq_append_take, Nat.sub_eq_zero_of_le hl,
      List.take_zero, List.append_nil] at h
  · push_neg at hl
    have hd : d <+: pat := by
      rcases List.prefix_or_prefix_of_prefix (List.prefix_append d y) h with h1 | h2
      · exact h1
      · exact absurd h2.length_le (by omega)
    obtain ⟨r, hr⟩ := hd
    have hry : r <+: y := by
      rw [← hr, List.prefix_append_right_inj] at h
      exact h
    cases r with
    | nil => rw [← hr] at hl; simp at hl
    | cons rh rt =>
        cases y with
        | nil => simp [List.prefix_nil] at hry
        | cons yh yt =>
            rw [List.cons_prefix_cons] at hry
            have hyb : yh = b := by simpa using hb
            have hrb : rh = b := hry.1.trans hyb
            exact absurd (by
              rw [← hr, ← hrb]
              exact List.mem_append_right _ (List.mem_cons_self _ _) : b ∈ pat) hbp

lemma occCountNil {pat : List Nat} (hp : pat ≠ []) : occCount pat [] = 0 := by
  simp [occCount, hp]

lemma occCountCons (pat : List Nat) (h : Nat) (t : List Nat) :
    occCount pat (h :: t) = (if pat <+: h :: t then 1 else 0) + occCount pat t := rfl

lemma occCountZeroIff {pat x : List Nat} : occCount pat x = 0 ↔ ¬ pat <:+: x := by
  induction x with
  | nil =>
      by_cases hp : pat = []
      · subst hp; simp [occCount]
      · simp [occCount, hp, List.infix_nil]
  | cons h t ih =>
      by_cases hpre : pat <+: h :: t
      · simp [occCountCons, hpre, List.infix_cons_iff]
      · simp [occCountCons, hpre, List.infix_cons_iff, ih]

lemma occCountAppendHead {pat y : List Nat} {b : Nat} (hp : pat ≠ [])
    (hb : y.head? = some b) (hbp : b ∉ pat) (x : List Nat) :
    occCount pat (x ++ y) = occCount pat x + occCount pat y := by
  induction x with
  | nil => simp [occCountNil hp]
  | cons h t ih =>
      have hiff : pat <+: h :: (t ++ y) ↔ pat <+: h :: t := by
        constructor
        · intro hh
          exact prefixOfAppendHead hb hbp (by rw [List.cons_append]; exact hh)
        · intro hh
          have h2 := hh.trans (List.prefix_append (h :: t) y)
          rwa [List.cons_append] at h2
      rw [List.cons_append, occCountCons, occCountCons, ih]
      by_cases hc : pat <+: h :: t
      · rw [if_pos hc, if_pos (hiff.mpr hc)]; omega
      · rw [if_neg hc, if_neg (mt hiff.mp hc)]; omega

lemma occCountAppendLast {pat x y : List Nat} {b : Nat} (hp : pat ≠ [])
    (hb : x.getLast? = some b) (hbp : b ∉ pat) :
    occCount pat (x ++ y) = occCount pat x + occCount pat y := by
  have hnotcons : ∀ z : List Nat, z.head? = some b → ¬ pat <+: z := by
    intro z hz hpz
    cases pat with
    | nil => exact hp rfl
    | cons ph pt =>
        cases z with
        | nil => simp at hz
        | cons zh zt =>
            rw [List.cons_prefix_cons] at hpz
            have hzb : zh = b := by simpa using hz
            have hphb : ph = b := hpz.1.trans hzb
            exact hbp (by rw [← hphb]; exact List.mem_cons_self _ _)
  induction x with
  | nil => simp at hb
  | cons h t ih =>
      cases t with
      | nil =>
          have hbh : h = b := by simpa using hb
          have h1 : ¬ pat <+: h :: y := hnotcons _ (by simp [hbh])
          have h2 : ¬ pat <+: [h] := hnotcons _ (by simp [hbh])
          rw [List.cons_append, List.nil_append, occCountCons, occCountCons,
            if_neg h1, if_neg h2, occCountNil hp]
      | cons h2 t2 =>
          have hb2 : (h2 :: t2).getLast? = some b := by
            rwa [List.getLast?_cons_cons] at hb
          have hiff : pat <+: h :: (h2 :: t2 ++ y) ↔ pat <+: h :: h2 :: t2 := by
            constructor
            · intro hh
              exact prefixOfAppendLast hb hbp (by rw [List.cons_append]; exact hh)
            · intro hh
              have h3 := hh.trans (List.prefix_append (h :: h2 :: t2) y)
              rwa [List.cons_append] at h3
          rw [List.cons_append, occCountCons, occCountCons, ih hb2]
          by_cases hc : pat <+: h :: h2 :: t2
          · rw [if_pos hc, if_pos (hiff.mpr hc)]; omega
          · rw [if_neg hc, if_neg (mt hiff.mp hc)]; omega

lemma occCountFlattenAppend {pat : List Nat} (hp : pat ≠ [])
    (h10 : (10 : Nat) ∉ pat) (chunks : List (List Nat))
    (hb : ∀ ch ∈ chunks, ch.getLast? = some 10) (c : List Nat) :
    occCount pat (chunks.flatten ++ c) =
      (chunks.map (occCount pat)).sum + occCount pat c := by
  induction chunks with
  | nil => simp
  | cons ch rest ih =>
      rw [List.flatten_cons, List.append_assoc,
        occCountAppendLast hp (hb ch (by simp)) h10,
        ih (fun x hx => hb x (by simp [hx]))]
      simp [Nat.add_assoc]

lemma markerNeNil : INJECT_MARKER ≠ [] := by decide

lemma markerNoNewline : (10 : Nat) ∉ INJECT_MARKER := by decide

set_option maxRecDepth 40000 in
lemma snippetChunksEndNewline : ∀ ch ∈ snippetChunkBytes, ch.getLast? = some 10 := by
  decide

set_option maxRecDepth 40000 in
lemma snippetChunksMarkerSum :
    (snippetChunkBytes.map (occCount INJECT_MARKER)).sum = 1 := by
  decide

lemma snippetHeadNewline : INJECT_SNIPPET.head? = some 10 := by decide

lemma occCountSnippet : occCount INJECT_MARKER INJECT_SNIPPET = 1 := by
  have h := occCountFlattenAppend markerNeNil markerNoNewline snippetChunkBytes
    snippetChunksEndNewline []
  rw [List.append_nil] at h
  rw [INJECT_SNIPPET, h, snippetChunksMarkerSum, occCountNil markerNeNil]

lemma occCountSnippetAppend (c : List Nat) :
    occCount INJECT_MARKER (INJECT_SNIPPET ++ c) = 1 + occCount INJECT_MARKER c := by
  have h := occCountFlattenAppend markerNeNil markerNoNewline snippetChunkBytes
    snippetChunksEndNewline c
  rw [INJECT_SNIPPET, h, snippetChunksMarkerSum]

lemma rfindDownSome {pat hay : List Nat} :
    ∀ {k i}, rfindDown pat hay k = some i →
      pat.isPrefixOf (hay.drop i) = true ∧ i ≤ k ∧
      ∀ j, i < j → j ≤ k → pat.isPrefixOf (hay.drop j) = false
  | 0, i, h => by
      rw [rfindDown] at h
      by_cases hc : pat.isPrefixOf hay
      · rw [if_pos hc] at h
        obtain rfl : (0 : Nat) = i := by injection h
        exact ⟨by simpa using hc, le_refl _, fun j h1 h2 => absurd h2 (by omega)⟩
      · rw [if_neg hc] at h; exact absurd h (by simp)
  | k + 1, i, h => by
      rw [rfindDown] at h
      by_cases hc : pat.isPrefixOf (hay.drop (k + 1))
      · rw [if_pos hc] at h
        obtain rfl : k + 1 = i := by injection h
        exact ⟨hc, le_refl _, fun j h1 h2 => absurd h2 (by omega)⟩
      · rw [if_neg hc] at h
        obtain ⟨h1, h2, h3⟩ := rfindDownSome h
        refine ⟨h1, by omega, fun j hj1 hj2 => ?_⟩
        rcases Nat.lt_or_ge j (k + 1) with hj | hj
        · exact h3 j hj1 (by omega)
        · have : j = k + 1 := by omega
          subst this
          exact Bool.eq_false_iff.mpr hc

lemma rfindDownNone {pat hay : List Nat} :
    ∀ {k}, rfindDown pat hay k = none →
      ∀ j, j ≤ k → pat.isPrefixOf (hay.drop j) = false
  | 0, h => by
      rw [rfindDown] at h
      by_cases hc : pat.isPrefixOf hay
      · rw [if_pos hc] at h; exact absurd h (by simp)
      · intro j hj
        have : j = 0 := by omega
        subst this
        simpa using Bool.eq_false_iff.mpr hc
  | k + 1, h => by
      rw [rfindDown] at h
      by_cases hc : pat.isPrefixOf (hay.drop (k + 1))
      · rw [if_pos hc] at h; exact absurd h (by simp)
      · rw [if_neg hc] at h
        intro j hj
        rcases Nat.lt_or_ge j (k + 1) with hj2 | hj2
        · exact rfindDownNone h j (by omega)
        · have : j = k + 1 := by omega
          subst this
          exact Bool.eq_false_iff.mpr hc

lemma rfindSome {pat hay : List Nat} {i : Nat} (hp : pat ≠ [])
    (h : rfind pat hay = some i) :
    pat <+: hay.drop i ∧ ∀ j, i < j → ¬ pat <+: hay.drop j := by
  obtain ⟨h1, _, h3⟩ := rfindDownSome h
  refine ⟨List.isPrefixOf_iff_prefix.mp h1, fun j hj hpre => ?_⟩
  rcases le_or_lt j hay.length with hjl | hjl
  · have hf := h3 j hj hjl
    exact absurd (List.isPrefixOf_iff_prefix.mpr hpre) (by simp [hf])
  · rw [List.drop_eq_nil_of_le (by omega), List.prefix_nil] at hpre
    exact hp hpre

lemma rfindNone {pat hay : List Nat} (hp : pat ≠ [])
    (h : rfind pat hay = none) : ∀ j, ¬ pat <+: hay.drop j := by
  intro j hpre
  rcases le_or_lt j hay.length with hjl | hjl
  · have := rfindDownNone h j hjl
    exact absurd (List.isPrefixOf_iff_prefix.mpr hpre) (by simp [this])
  · rw [List.drop_eq_nil_of_le (by omega), List.prefix_nil] at hpre
    exact hp hpre

/-! ### Claim theorems -/

/-- C1: the claim says every SSE event on `/__livereload` consists of lines
each terminated by a newline character. The code does not do this: the
literals it writes contain the two-character sequence backslash-`n` instead
of newline bytes, so the stream for a connection that observes change id 1
and then an idle timeout is one newline-free byte string, and the emitted
events differ from the newline-terminated events the spec prescribes. -/
theorem c1_sse_payloads_lack_newlines :
    livereloadStream [WaitOutcome.changed 1, WaitOutcome.timedOut] =
      ": connected\\n\\nevent: reload\\ndata: 1\\n\\nevent: ping\\ndata: 0\\n\\n" ∧
    (livereloadStream [WaitOutcome.changed 1, WaitOutcome.timedOut]).data.all
      (fun c => c ≠ '\n') = true ∧
    sseReload 1 ≠ specSseReload 1 ∧
    ssePing ≠ specSsePing := by
  refine ⟨by decide, by decide, by decide, by decide⟩

/-- C4: serving an HTML file for HEAD performs the same injection
computation as for GET — status, headers and `Content-Length` agree, the
HEAD `Content-Length` equals the byte length of the GET body, and the HEAD
response carries no body. -/
theorem c4_head_get_equivalence (data : List Nat) :
    (serveHtmlResponse data true).contentLength =
      ((serveHtmlResponse data false).body).length ∧
    (serveHtmlResponse data true).body = [] ∧
    (serveHtmlResponse data true).contentLength =
      (serveHtmlResponse data false).contentLength ∧
    (serveHtmlResponse data true).status = (serveHtmlResponse data false).status ∧
    (serveHtmlResponse data true).contentType =
      (serveHtmlResponse data false).contentType ∧
    (serveHtmlResponse data true).cacheControl =
      (serveHtmlResponse data false).cacheControl := by
  simp [serveHtmlResponse]

lemma foldlBumpReplicate (n : Nat) : ∀ s : LiveReloadState,
    ((List.replicate n StateOp.bump).foldl LiveReloadState.step s).change_id =
      s.change_id + n := by
  induction n with
  | zero => intro s; simp
  | succ k ih =>
      intro s
      rw [List.replicate_succ, List.foldl_cons, ih]
      simp [LiveReloadState.step, LiveReloadState.bump]
      omega

/-- C6: `change_id` starts at 0 and never decreases under any operation;
each `bump` increments it by exactly one (atomically, the whole Python
body running under the condition's lock), wakes every waiting thread,
and returns the new value; after `n` bumps `change_id` equals `n`. -/
theorem c6_reload_state_invariant :
    LiveReloadState.init.change_id = 0 ∧
    (∀ s : LiveReloadState,
      ((LiveReloadState.bump s).1).change_id = s.change_id + 1 ∧
      (LiveReloadState.bump s).2.1 = s.waiters ∧
      ((LiveReloadState.bump s).1).waiters = [] ∧
      (LiveReloadState.bump s).2.2 = s.change_id + 1) ∧
    (∀ (s : LiveReloadState) (op : StateOp),
      s.change_id ≤ (s.step op).change_id) ∧
    (∀ n : Nat,
      ((List.replicate n StateOp.bump).foldl LiveReloadState.step
        LiveReloadState.init).change_id = n) := by
  refine ⟨rfl, fun s => ⟨rfl, rfl, rfl, rfl⟩, fun s op => ?_, fun n => ?_⟩
  · cases op <;> simp [LiveReloadState.step, LiveReloadState.bump]
  · rw [foldlBumpReplicate]
    simp [LiveReloadState.init]

lemma dlookupEqSome {s : Snap} {k : List String} {v : Nat × Nat}
    (h : dlookup s k = some v) : ∃ e ∈ s, e.1 = k ∧ e.2 = v := by
  unfold dlookup at h
  rw [Option.map_eq_some'] at h
  obtain ⟨e, he, hev⟩ := h
  exact ⟨e, List.mem_of_find?_eq_some he, by simpa using List.find?_some he, hev⟩

lemma snapEqIff (a b : Snap) :
    snapEqB a b = true ↔ ∀ k, dlookup a k = dlookup b k := by
  unfold snapEqB
  rw [Bool.and_eq_true, List.all_eq_true, List.all_eq_true]
  constructor
  · rintro ⟨ha, hb⟩ k
    cases hak : dlookup a k with
    | some v =>
        obtain ⟨e, he, hk, hv⟩ := dlookupEqSome hak
        have h2 := ha e he
        rw [beq_iff_eq, hk] at h2
        rw [← h2, hak]
    | none =>
        cases hbk : dlookup b k with
        | none => rfl
        | some w =>
            obtain ⟨e, he, hk, hv⟩ := dlookupEqSome hbk
            have h2 := hb e he
            rw [beq_iff_eq, hk] at h2
            rw [h2, hbk] at hak
            exact absurd hak (by simp)
  · intro h
    exact ⟨fun e _ => by rw [beq_iff_eq]; exact h e.1,
           fun e _ => by rw [beq_iff_eq]; exact h e.1⟩

/-- C5: a watcher poll cycle that sees any dictionary difference between
the fresh snapshot and the stored one replaces the stored snapshot with
the fresh one and calls `bump` exactly once; a cycle that sees equal
snapshots keeps the stored snapshot and calls `bump` zero times. -/
theorem c5_watch_cycle (prev cur : Snap) (st : LiveReloadState) :
    ((∃ k, dlookup cur k ≠ dlookup prev k) →
      watchCycle prev cur st = (cur, (LiveReloadState.bump st).1, 1)) ∧
    ((∀ k, dlookup cur k = dlookup prev k) →
      watchCycle prev cur st = (prev, st, 0)) := by
  constructor
  · rintro ⟨k, hk⟩
    have hne : snapEqB cur prev = false := by
      cases h : snapEqB cur prev
      · rfl
      · exact absurd ((snapEqIff _ _).mp h k) hk
    simp [watchCycle, hne]
  · intro h
    have heq : snapEqB cur prev = true := (snapEqIff _ _).mpr h
    simp [watchCycle, heq]

/-- Witness for C5: a one-file difference triggers exactly one bump; equal
snapshots trigger none. -/
theorem c5_watch_cycle_witness :
    watchCycle [] [([("a" : String)], ((1, 2) : Nat × Nat))] LiveReloadState.init =
      ([(["a"], (1, 2))], (LiveReloadState.bump LiveReloadState.init).1, 1) ∧
    watchCycle [([("a" : String)], ((1, 2) : Nat × Nat))]
        [([("a" : String)], ((1, 2) : Nat × Nat))] LiveReloadState.init =
      ([(["a"], (1, 2))], LiveReloadState.init, 0) :=
  ⟨(c5_watch_cycle [] [(["a"], (1, 2))] LiveReloadState.init).1
      ⟨["a"], by decide⟩,
   (c5_watch_cycle [(["a"], (1, 2))] [(["a"], (1, 2))] LiveReloadState.init).2
      (fun _ => rfl)⟩

lemma bodyTagNeNil : bodyTag ≠ [] := by decide

/-- C2: for file bytes that do not contain the marker, the GET response is
200 with `Content-Type: text/html; charset=utf-8`, `Cache-Control:
no-cache`, `Content-Length` equal to the body's byte length, and a body
equal to the file bytes with the snippet spliced immediately before the
last case-insensitive occurrence of `</body>`, or appended at the end when
no such occurrence exists. -/
theorem c2_html_injection (data : List Nat) (h : ¬ INJECT_MARKER <:+: data) :
    injectionSpecProp data := by
  have hbody : (serveHtmlResponse data false).body = injectBody data := rfl
  refine ⟨rfl, rfl, rfl, rfl, ?_, ?_⟩
  · intro i hocc
    rw [hbody]
    unfold injectBody
    rw [if_neg h]
    cases hr : rfind bodyTag (lowerBytes data) with
    | some idx =>
        obtain ⟨hoccIdx, hlastIdx⟩ := rfindSome bodyTagNeNil hr
        obtain ⟨hiOcc, hiLast⟩ := hocc
        have heq : i = idx := by
          rcases lt_trichotomy i idx with hlt | heq | hgt
          · exact absurd hoccIdx (hiLast idx hlt)
          · exact heq
          · exact absurd hiOcc (hlastIdx i hgt)
        subst heq
        rfl
    | none =>
        exact absurd hocc.1 (rfindNone bodyTagNeNil hr i)
  · intro hnone
    rw [hbody]
    unfold injectBody
    rw [if_neg h]
    cases hr : rfind bodyTag (lowerBytes data) with
    | some idx => exact absurd (rfindSome bodyTagNeNil hr).1 (hnone idx)
    | none => rfl

/-- Witness for C2: a sample with two case-variant closing body tags and a
sample with none, both marker-free. -/
theorem c2_html_injection_witness :
    (¬ INJECT_MARKER <:+: sampleHtml ∧ injectionSpecProp sampleHtml) ∧
    (¬ INJECT_MARKER <:+: sampleNoBody ∧ injectionSpecProp sampleNoBody) :=
  ⟨⟨by decide, c2_html_injection sampleHtml (by decide)⟩,
   ⟨by decide, c2_html_injection sampleNoBody (by decide)⟩⟩

/-- C3 counterexample: the claim asserts that the served body of any
unmodified HTML file contains the marker exactly once; a file consisting
of the marker twice is served unchanged (idempotence) and its body
contains the marker twice. -/
theorem c3_counterexample :
    (serveHtmlResponse markerDoubled false).body = markerDoubled ∧
    occCount INJECT_MARKER ((serveHtmlResponse markerDoubled false).body) = 2 := by
  constructor
  · decide
  · decide

/-- C3 (amended): a file already containing the marker is served byte-for-
byte unchanged (so repeated serves of an unchanged file give identical
bodies), and the served body contains the marker exactly once whenever the
file either lacks the marker or contains it exactly once. -/
theorem c3_injection_idempotent (data : List Nat) :
    (INJECT_MARKER <:+: data → (serveHtmlResponse data false).body = data) ∧
    (¬ INJECT_MARKER <:+: data →
      occCount INJECT_MARKER ((serveHtmlResponse data false).body) = 1) ∧
    (occCount INJECT_MARKER data = 1 →
      (serveHtmlResponse data false).body = data ∧
      occCount INJECT_MARKER ((serveHtmlResponse data false).body) = 1) := by
  have hbody : (serveHtmlResponse data false).body = injectBody data := rfl
  have part1 : INJECT_MARKER <:+: data → (serveHtmlResponse data false).body = data := by
    intro h
    rw [hbody]
    unfold injectBody
    rw [if_pos h]
  refine ⟨part1, ?_, ?_⟩
  · intro h
    rw [hbody]
    unfold injectBody
    rw [if_neg h]
    cases hr : rfind bodyTag (lowerBytes data) with
    | some idx =>
        show occCount INJECT_MARKER
          (List.take idx data ++ INJECT_SNIPPET ++ List.drop idx data) = 1
        rw [List.append_assoc]
        have hy : (INJECT_SNIPPET ++ data.drop idx).head? = some 10 := by
          rw [List.head?_append, snippetHeadNewline]
          rfl
        rw [occCountAppendHead markerNeNil hy markerNoNewline,
          occCountSnippetAppend]
        have h1 : occCount INJECT_MARKER (data.take idx) = 0 :=
          occCountZeroIff.mpr (fun hin => h (hin.trans (List.take_prefix _ _).isInfix))
        have h2 : occCount INJECT_MARKER (data.drop idx) = 0 :=
          occCountZeroIff.mpr (fun hin => h (hin.trans (List.drop_suffix _ _).isInfix))
        omega
    | none =>
        show occCount INJECT_MARKER (data ++ INJECT_SNIPPET) = 1
        rw [occCountAppendHead markerNeNil snippetHeadNewline markerNoNewline,
          occCountSnippet]
        have h1 : occCount INJECT_MARKER data = 0 := occCountZeroIff.mpr h
        omega
  · intro h1
    have hmem : INJECT_MARKER <:+: data := by
      by_contra hc
      have h0 := occCountZeroIff.mpr hc
      omega
    have hb := part1 hmem
    rw [hb]
    exact ⟨rfl, h1⟩

/-- Witness for C3 (amended): the marker-doubled file is served unchanged;
the marker-free sample's served body has the marker exactly once; a file
that is exactly one marker occurrence is served unchanged with one
occurrence. -/
theorem c3_injection_idempotent_witness :
    (INJECT_MARKER <:+: markerDoubled ∧
      (serveHtmlResponse markerDoubled false).body = markerDoubled) ∧
    (¬ INJECT_MARKER <:+: sampleHtml ∧
      occCount INJECT_MARKER ((serveHtmlResponse sampleHtml false).body) = 1) ∧
    (occCount INJECT_MARKER INJECT_MARKER = 1 ∧
      (serveHtmlResponse INJECT_MARKER false).body = INJECT_MARKER ∧
      occCount INJECT_MARKER ((serveHtmlResponse INJECT_MARKER false).body) = 1) :=
  ⟨⟨by decide, (c3_injection_idempotent markerDoubled).1 (by decide)⟩,
   ⟨by decide, (c3_injection_idempotent sampleHtml).2.1 (by decide)⟩,
   ⟨by decide, (c3_injection_idempotent INJECT_MARKER).2.2 (by decide)⟩⟩

lemma snapWalkNil (x : List String) (acc : Snap) : snapWalk x [] acc = .ok acc := by
  rw [snapWalk.eq_def]

lemma snapWalkFileSkip {name : String} (path : List String) (st : StatResult)
    (rest : List FSNode) (acc : Snap)
    (hex : name = ".DS_Store" ∨ name = "recording.mov") :
    snapWalk path (.file name st :: rest) acc = snapWalk path rest acc := by
  rw [snapWalk.eq_def]
  exact if_pos hex

lemma snapWalkFileOk {name : String} (path : List String) (m sz : Nat)
    (rest : List FSNode) (acc : Snap)
    (hnex : ¬ (name = ".DS_Store" ∨ name = "recording.mov")) :
    snapWalk path (.file name (.ok m sz) :: rest) acc =
      snapWalk path rest (dinsert acc (path ++ [name]) (m, sz)) := by
  rw [snapWalk.eq_def]
  exact if_neg hnex

lemma snapWalkFileGone {name : String} (path : List String)
    (rest : List FSNode) (acc : Snap)
    (hnex : ¬ (name = ".DS_Store" ∨ name = "recording.mov")) :
    snapWalk path (.file name .fileNotFound :: rest) acc = snapWalk path rest acc := by
  rw [snapWalk.eq_def]
  exact if_neg hnex

lemma snapWalkFileErr {name : String} (path : List String)
    (rest : List FSNode) (acc : Snap)
    (hnex : ¬ (name = ".DS_Store" ∨ name = "recording.mov")) :
    snapWalk path (.file name .otherError :: rest) acc = .error () := by
  rw [snapWalk.eq_def]
  exact if_neg hnex

lemma snapWalkDirSkip {name : String} (path : List String) (cs rest : List FSNode)
    (acc : Snap) (hex : name = ".git" ∨ name = "refs") :
    snapWalk path (.dir name cs :: rest) acc = snapWalk path rest acc := by
  rw [snapWalk.eq_def]
  exact if_pos hex

lemma snapWalkDirGo {name : String} (path : List String) (cs rest : List FSNode)
    (acc : Snap) (hnex : ¬ (name = ".git" ∨ name = "refs")) :
    snapWalk path (.dir name cs :: rest) acc =
      match snapWalk (path ++ [name]) cs acc with
      | .error e => .error e
      | .ok acc2 => snapWalk path rest acc2 := by
  rw [snapWalk.eq_def]
  exact if_neg hnex

lemma scrubNil : scrub [] = [] := by rw [scrub.eq_def]

lemma scrubFileSkip {name : String} (st : StatResult) (rest : List FSNode)
    (hex : name = ".DS_Store" ∨ name = "recording.mov") :
    scrub (.file name st :: rest) = scrub rest := by
  rw [scrub.eq_def]
  exact if_pos hex

lemma scrubFileKeep {name : String} (st : StatResult) (rest : List FSNode)
    (hnex : ¬ (name = ".DS_Store" ∨ name = "recording.mov")) :
    scrub (.file name st :: rest) = .file name st :: scrub rest := by
  rw [scrub.eq_def]
  exact if_neg hnex

lemma scrubDirSkip {name : String} (cs rest : List FSNode)
    (hex : name = ".git" ∨ name = "refs") :
    scrub (.dir name cs :: rest) = scrub rest := by
  rw [scrub.eq_def]
  exact if_pos hex

lemma scrubDirKeep {name : String} (cs rest : List FSNode)
    (hnex : ¬ (name = ".git" ∨ name = "refs")) :
    scrub (.dir name cs :: rest) = .dir name (scrub cs) :: scrub rest := by
  rw [scrub.eq_def]
  exact if_neg hnex

lemma snapWalkScrub (path0 : List String) (nodes0 : List FSNode) (acc0 : Snap) :
    snapWalk path0 nodes0 acc0 = snapWalk path0 (scrub nodes0) acc0 := by
  induction path0, nodes0, acc0 using snapWalk.induct with
  | case1 x acc => rw [scrubNil]
  | case2 path name st rest acc hex ih =>
      rw [scrubFileSkip _ _ hex, snapWalkFileSkip _ _ _ _ hex]
      exact ih
  | case3 path name rest acc hnex m sz ih =>
      rw [scrubFileKeep _ _ hnex, snapWalkFileOk _ _ _ _ _ hnex,
        snapWalkFileOk _ _ _ _ _ hnex]
      exact ih
  | case4 path name rest acc hnex ih =>
      rw [scrubFileKeep _ _ hnex, snapWalkFileGone _ _ _ hnex,
        snapWalkFileGone _ _ _ hnex]
      exact ih
  | case5 path name rest acc hnex =>
      rw [scrubFileKeep _ _ hnex, snapWalkFileErr _ _ _ hnex,
        snapWalkFileErr _ _ _ hnex]
  | case6 path name cs rest acc hex ih =>
      rw [scrubDirSkip _ _ hex, snapWalkDirSkip _ _ _ _ hex]
      exact ih
  | case7 path name cs rest acc hnex e herr ihcs =>
      rw [snapWalkDirGo _ _ _ _ hnex, herr, scrubDirKeep _ _ hnex,
        snapWalkDirGo _ _ _ _ hnex, ← ihcs, herr]
  | case8 path name cs rest acc hnex acc2 hok ihcs ihrest =>
      rw [snapWalkDirGo _ _ _ _ hnex, hok, scrubDirKeep _ _ hnex,
        snapWalkDirGo _ _ _ _ hnex, ← ihcs, hok]
      exact ihrest

lemma memDinsert {acc : Snap} {k : List String} {v : Nat × Nat}
    {e : List String × (Nat × Nat)} (h : e ∈ dinsert acc k v) :
    e = (k, v) ∨ e ∈ acc := by
  unfold dinsert at h
  split at h
  · rw [List.mem_map] at h
    obtain ⟨a, ha, hfe⟩ := h
    by_cases hk : a.1 = k
    · rw [if_pos hk] at hfe
      exact Or.inl hfe.symm
    · rw [if_neg hk] at hfe
      exact Or.inr (hfe ▸ ha)
  · rcases List.mem_append.mp h with h1 | h1
    · exact Or.inr h1
    · exact Or.inl (by simpa using h1)

lemma snapWalkMem (path0 : List String) (nodes0 : List FSNode) (acc0 : Snap) :
    ∀ s, snapWalk path0 nodes0 acc0 = Except.ok s →
    ∀ kv, kv ∈ s → kv ∈ acc0 ∨
      ∃ ds name, kv.1 = path0 ++ ds ++ [name] ∧
        name ≠ ".DS_Store" ∧ name ≠ "recording.mov" ∧
        ∀ d ∈ ds, d ≠ ".git" ∧ d ≠ "refs" := by
  induction path0, nodes0, acc0 using snapWalk.induct with
  | case1 x acc =>
      intro s hs kv hkv
      rw [snapWalkNil] at hs
      obtain rfl : acc = s := by injection hs
      exact Or.inl hkv
  | case2 path name st rest acc hex ih =>
      intro s hs kv hkv
      rw [snapWalkFileSkip _ _ _ _ hex] at hs
      exact ih s hs kv hkv
  | case3 path name rest acc hnex m sz ih =>
      intro s hs kv hkv
      rw [snapWalkFileOk _ _ _ _ _ hnex] at hs
      push_neg at hnex
      rcases ih s hs kv hkv with hin | hP
      · rcases memDinsert hin with heq | hacc
        · refine Or.inr ⟨[], name, ?_, hnex.1, hnex.2, by simp⟩
          rw [heq]
          simp
        · exact Or.inl hacc
      · exact Or.inr hP
  | case4 path name rest acc hnex ih =>
      intro s hs kv hkv
      rw [snapWalkFileGone _ _ _ hnex] at hs
      exact ih s hs kv hkv
  | case5 path name rest acc hnex =>
      intro s hs kv hkv
      rw [snapWalkFileErr _ _ _ hnex] at hs
      exact Except.noConfusion hs
  | case6 path name cs rest acc hex ih =>
      intro s hs kv hkv
      rw [snapWalkDirSkip _ _ _ _ hex] at hs
      exact ih s hs kv hkv
  | case7 path name cs rest acc hnex e herr ihcs =>
      intro s hs kv hkv
      rw [snapWalkDirGo _ _ _ _ hnex, herr] at hs
      exact Except.noConfusion hs
  | case8 path name cs rest acc hnex acc2 hok ihcs ihrest =>
      intro s hs kv hkv
      rw [snapWalkDirGo _ _ _ _ hnex, hok] at hs
      push_neg at hnex
      rcases ihrest s hs kv hkv with hin2 | hP
      · rcases ihcs acc2 hok kv hin2 with hin | hP2
        · exact Or.inl hin
        · obtain ⟨ds, nm, hkv1, hn1, hn2, hds⟩ := hP2
          refine Or.inr ⟨name :: ds, nm, ?_, hn1, hn2, ?_⟩
          · rw [hkv1]
            simp
          · intro d hd
            rcases List.mem_cons.mp hd with rfl | hd2
            · exact ⟨hnex.1, hnex.2⟩
            · exact hds d hd2
      · exact Or.inr hP

/-- C10: the exclusion sets are fixed and matched by exact base name at
every depth — a snapshot walk is unaffected by erasing `.git`/`refs`
directories and `.DS_Store`/`recording.mov` files (so two trees that agree
after such erasure give identical walks), and every file recorded by a
successful snapshot lies at a path whose final component is not an
excluded file name and whose intermediate components under the root avoid
the excluded directory names. -/
theorem c10_exclusions :
    (∀ (path : List String) (nodes : List FSNode) (acc : Snap),
      snapWalk path nodes acc = snapWalk path (scrub nodes) acc) ∧
    (∀ (path : List String) (acc : Snap) (t1 t2 : List FSNode),
      scrub t1 = scrub t2 → snapWalk path t1 acc = snapWalk path t2 acc) ∧
    (∀ (root : List String) (tree : List FSNode) (s : Snap),
      snapshotTree root tree = Except.ok s →
      ∀ kv ∈ s, ∃ ds name, kv.1 = root ++ ds ++ [name] ∧
        name ≠ ".DS_Store" ∧ name ≠ "recording.mov" ∧
        ∀ d ∈ ds, d ≠ ".git" ∧ d ≠ "refs") := by
  refine ⟨snapWalkScrub, ?_, ?_⟩
  · intro path acc t1 t2 h
    rw [snapWalkScrub path t1 acc, h, ← snapWalkScrub path t2 acc]
  · intro root tree s hs kv hkv
    rcases snapWalkMem root tree [] s hs kv hkv with hin | hP
    · exact absurd hin (List.not_mem_nil kv)
    · exact hP

/-- Witness for C10: a tree with a `.git` subtree and a `.DS_Store` file
walks identically to the tree without them, and a concrete successful
snapshot's single entry decomposes as required. -/
theorem c10_exclusions_witness :
    (scrub [FSNode.dir ".git" [FSNode.file "x" (StatResult.ok 1 2)],
        FSNode.file "a" (StatResult.ok 3 4),
        FSNode.file ".DS_Store" (StatResult.ok 5 6)] =
      scrub [FSNode.file "a" (StatResult.ok 3 4)] ∧
     snapWalk ["r"] [FSNode.dir ".git" [FSNode.file "x" (StatResult.ok 1 2)],
        FSNode.file "a" (StatResult.ok 3 4),
        FSNode.file ".DS_Store" (StatResult.ok 5 6)] [] =
      snapWalk ["r"] [FSNode.file "a" (StatResult.ok 3 4)] []) ∧
    (snapshotTree ["r"] [FSNode.file "a" (StatResult.ok 1 2)] =
      Except.ok [(["r", "a"], (1, 2))] ∧
     ∃ ds name, (["r", "a"] : List String) = ["r"] ++ ds ++ [name] ∧
       name ≠ ".DS_Store" ∧ name ≠ "recording.mov" ∧
       ∀ d ∈ ds, d ≠ ".git" ∧ d ≠ "refs") := by
  have hscrub : scrub [FSNode.dir ".git" [FSNode.file "x" (StatResult.ok 1 2)],
      FSNode.file "a" (StatResult.ok 3 4),
      FSNode.file ".DS_Store" (StatResult.ok 5 6)] =
      scrub [FSNode.file "a" (StatResult.ok 3 4)] := by
    rw [scrubDirSkip _ _ (by decide), scrubFileKeep _ _ (by decide),
      scrubFileSkip _ _ (by decide), scrubFileKeep _ _ (by decide)]
  have hsnap : snapshotTree ["r"] [FSNode.file "a" (StatResult.ok 1 2)] =
      Except.ok [(["r", "a"], (1, 2))] := by
    rw [snapshotTree, snapWalkFileOk _ _ _ _ _ (by decide), snapWalkNil]
    rfl
  refine ⟨⟨hscrub, c10_exclusions.2.1 ["r"] [] _ _ hscrub⟩, ⟨hsnap, ?_⟩⟩
  exact c10_exclusions.2.2 ["r"] [FSNode.file "a" (StatResult.ok 1 2)]
    [(["r", "a"], (1, 2))] hsnap (["r", "a"], (1, 2)) (by simp)

lemma hroNil : hasReachableOtherError [] = false := by
  rw [hasReachableOtherError.eq_def]

lemma hroFile (name : String) (st : StatResult) (rest : List FSNode) :
    hasReachableOtherError (.file name st :: rest) =
      ((if name = ".DS_Store" ∨ name = "recording.mov" then false
        else st == .otherError) || hasReachableOtherError rest) := by
  rw [hasReachableOtherError.eq_def]

lemma hroDir (name : String) (cs rest : List FSNode) :
    hasReachableOtherError (.dir name cs :: rest) =
      ((if name = ".git" ∨ name = "refs" then false
        else hasReachableOtherError cs) || hasReachableOtherError rest) := by
  rw [hasReachableOtherError.eq_def]

lemma dropNil : dropEnoent [] = [] := by rw [dropEnoent.eq_def]

lemma dropFileGone (name : String) (rest : List FSNode) :
    dropEnoent (.file name .fileNotFound :: rest) = dropEnoent rest := by
  rw [dropEnoent.eq_def]
  exact if_pos rfl

lemma dropFileKeep {st : StatResult} (name : String) (rest : List FSNode)
    (hne : st ≠ .fileNotFound) :
    dropEnoent (.file name st :: rest) = .file name st :: dropEnoent rest := by
  rw [dropEnoent.eq_def]
  exact if_neg hne

lemma dropDir (name : String) (cs rest : List FSNode) :
    dropEnoent (.dir name cs :: rest) =
      .dir name (dropEnoent cs) :: dropEnoent rest := by
  rw [dropEnoent.eq_def]

/-- C7 counterexample: the claim says a stat failure of ANY cause leaves
the file out and lets snapshot construction complete normally; a single
non-`FileNotFoundError` `OSError` aborts the whole walk instead (the
second file is never recorded). -/
theorem c7_counterexample :
    snapshotTree [] [FSNode.file "a" StatResult.otherError,
      FSNode.file "b" (StatResult.ok 1 2)] = Except.error () := by
  rw [snapshotTree, snapWalkFileErr _ _ _ (by decide)]

/-- C7 (amended): when no file the walk actually stats raises a
non-`FileNotFoundError` error, snapshot construction completes normally,
and files whose stat raises `FileNotFoundError` are silently omitted: the
walk equals the walk of the tree with those files erased. -/
theorem c7_stat_failures (path0 : List String) (nodes0 : List FSNode)
    (acc0 : Snap) (h : hasReachableOtherError nodes0 = false) :
    (∃ s, snapWalk path0 nodes0 acc0 = Except.ok s) ∧
    snapWalk path0 nodes0 acc0 = snapWalk path0 (dropEnoent nodes0) acc0 := by
  induction path0, nodes0, acc0 using snapWalk.induct with
  | case1 x acc =>
      exact ⟨⟨acc, snapWalkNil _ _⟩, by rw [dropNil]⟩
  | case2 path name st rest acc hex ih =>
      rw [hroFile, if_pos hex, Bool.false_or] at h
      have hih := ih h
      constructor
      · rw [snapWalkFileSkip _ _ _ _ hex]
        exact hih.1
      · rw [snapWalkFileSkip _ _ _ _ hex]
        by_cases hst : st = StatResult.fileNotFound
        · subst hst
          rw [dropFileGone]
          exact hih.2
        · rw [dropFileKeep _ _ hst, snapWalkFileSkip _ _ _ _ hex]
          exact hih.2
  | case3 path name rest acc hnex m sz ih =>
      rw [hroFile, if_neg hnex, Bool.or_eq_false_iff] at h
      have hih := ih h.2
      constructor
      · rw [snapWalkFileOk _ _ _ _ _ hnex]
        exact hih.1
      · rw [snapWalkFileOk _ _ _ _ _ hnex,
          dropFileKeep _ _ (fun hc => StatResult.noConfusion hc),
          snapWalkFileOk _ _ _ _ _ hnex]
        exact hih.2
  | case4 path name rest acc hnex ih =>
      rw [hroFile, if_neg hnex, Bool.or_eq_false_iff] at h
      have hih := ih h.2
      constructor
      · rw [snapWalkFileGone _ _ _ hnex]
        exact hih.1
      · rw [snapWalkFileGone _ _ _ hnex, dropFileGone]
        exact hih.2
  | case5 path name rest acc hnex =>
      rw [hroFile, if_neg hnex] at h
      simp at h
  | case6 path name cs rest acc hex ih =>
      rw [hroDir, if_pos hex, Bool.false_or] at h
      have hih := ih h
      constructor
      · rw [snapWalkDirSkip _ _ _ _ hex]
        exact hih.1
      · rw [snapWalkDirSkip _ _ _ _ hex, dropDir, snapWalkDirSkip _ _ _ _ hex]
        exact hih.2
  | case7 path name cs rest acc hnex e herr ihcs =>
      rw [hroDir, if_neg hnex, Bool.or_eq_false_iff] at h
      obtain ⟨s1, hs1⟩ := (ihcs h.1).1
      rw [herr] at hs1
      exact Except.noConfusion hs1
  | case8 path name cs rest acc hnex acc2 hok ihcs ihrest =>
      rw [hroDir, if_neg hnex, Bool.or_eq_false_iff] at h
      have hihcs := ihcs h.1
      have hihrest := ihrest h.2
      have hok2 : snapWalk (path ++ [name]) (dropEnoent cs) acc = Except.ok acc2 := by
        rw [← hihcs.2]
        exact hok
      constructor
      · rw [snapWalkDirGo _ _ _ _ hnex, hok]
        exact hihrest.1
      · rw [snapWalkDirGo _ _ _ _ hnex, hok, dropDir,
          snapWalkDirGo _ _ _ _ hnex, hok2]
        exact hihrest.2

/-- Witness for C7 (amended): a tree with one vanished file and one live
file walks successfully and identically to the tree without the vanished
file. -/
theorem c7_stat_failures_witness :
    hasReachableOtherError [FSNode.file "gone" StatResult.fileNotFound,
      FSNode.file "b" (StatResult.ok 1 2)] = false ∧
    (∃ s, snapWalk [] [FSNode.file "gone" StatResult.fileNotFound,
      FSNode.file "b" (StatResult.ok 1 2)] [] = Except.ok s) ∧
    snapWalk [] [FSNode.file "gone" StatResult.fileNotFound,
        FSNode.file "b" (StatResult.ok 1 2)] [] =
      snapWalk [] (dropEnoent [FSNode.file "gone" StatResult.fileNotFound,
        FSNode.file "b" (StatResult.ok 1 2)]) [] := by
  have hro : hasReachableOtherError [FSNode.file "gone" StatResult.fileNotFound,
      FSNode.file "b" (StatResult.ok 1 2)] = false := by
    rw [hroFile, hroFile, hroNil, if_neg (by decide), if_neg (by decide)]
    decide
  exact ⟨hro, (c7_stat_failures [] _ [] hro).1, (c7_stat_failures [] _ [] hro).2⟩

lemma dispatchRedirect (fs : String → Option FSEntry)
    (translate : String → String) (target : String)
    (h1 : urlPathOf target ≠ "/__livereload")
    (h2 : fs (translate (urlPathOf target)) = some FSEntry.dir)
    (h3 : endsSlash (urlPathOf target) = false) :
    doGET fs translate target =
      HandlerResult.redirect301 (urlPathOf target ++ "/") ∧
    doHEAD fs translate target =
      HandlerResult.redirect301 (urlPathOf target ++ "/") := by
  constructor <;> simp [doGET, doHEAD, h1, h2, h3]

lemma dispatchIndexHtml (fs : String → Option FSEntry)
    (translate : String → String) (target : String) (c : List Nat)
    (h1 : urlPathOf target ≠ "/__livereload")
    (h2 : fs (translate (urlPathOf target)) = some FSEntry.dir)
    (h3 : endsSlash (urlPathOf target) = true)
    (hidx : fs (joinPath (translate (urlPathOf target)) "index.html") =
      some (FSEntry.file c)) :
    doGET fs translate target = HandlerResult.html (serveHtmlResponse c false) ∧
    doHEAD fs translate target = HandlerResult.html (serveHtmlResponse c true) := by
  constructor <;> simp [doGET, doHEAD, h1, h2, h3, hidx]

lemma dispatchIndexHtm (fs : String → Option FSEntry)
    (translate : String → String) (target : String) (c : List Nat)
    (h1 : urlPathOf target ≠ "/__livereload")
    (h2 : fs (translate (urlPathOf target)) = some FSEntry.dir)
    (h3 : endsSlash (urlPathOf target) = true)
    (hno : ∀ c2, fs (joinPath (translate (urlPathOf target)) "index.html") ≠
      some (FSEntry.file c2))
    (hidx : fs (joinPath (translate (urlPathOf target)) "index.htm") =
      some (FSEntry.file c)) :
    doGET fs translate target = HandlerResult.html (serveHtmlResponse c false) ∧
    doHEAD fs translate target = HandlerResult.html (serveHtmlResponse c true) := by
  cases hfs : fs (joinPath (translate (urlPathOf target)) "index.html") with
  | none => constructor <;> simp [doGET, doHEAD, h1, h2, h3, hfs, hidx]
  | some e =>
      cases e with
      | dir => constructor <;> simp [doGET, doHEAD, h1, h2, h3, hfs, hidx]
      | file c2 => exact absurd hfs (hno c2)

/-- C8 counterexample: the claim quantifies over every request whose path
resolves to an existing directory and lacks a trailing slash; with a
directory actually named `__livereload` under the root, `GET /__livereload`
is answered with the SSE stream (and `HEAD` with 405), not with a 301. -/
theorem c8_counterexample :
    fsLr (id (urlPathOf "/__livereload")) = some FSEntry.dir ∧
    endsSlash (urlPathOf "/__livereload") = false ∧
    doGET fsLr id "/__livereload" = HandlerResult.livereload ∧
    doGET fsLr id "/__livereload" ≠
      HandlerResult.redirect301 (urlPathOf "/__livereload" ++ "/") ∧
    doHEAD fsLr id "/__livereload" = HandlerResult.methodNotAllowed405 ∧
    doHEAD fsLr id "/__livereload" ≠
      HandlerResult.redirect301 (urlPathOf "/__livereload" ++ "/") := by
  refine ⟨by decide, by decide, by decide, by decide, by decide, by decide⟩

/-- C8 (amended): for every GET or HEAD request whose URL path is not
`/__livereload` and resolves to an existing directory: without a trailing
slash the response is a 301 whose Location is the URL path plus `/`; with
a trailing slash and an `index.html` (or, failing that, an `index.htm`)
file present, the response is served through the HTML-injection path with
status 200 (HEAD body-less). -/
theorem c8_directory_redirect (fs : String → Option FSEntry)
    (translate : String → String) (target : String)
    (h1 : urlPathOf target ≠ "/__livereload")
    (h2 : fs (translate (urlPathOf target)) = some FSEntry.dir) :
    (endsSlash (urlPathOf target) = false →
      doGET fs translate target =
        HandlerResult.redirect301 (urlPathOf target ++ "/") ∧
      doHEAD fs translate target =
        HandlerResult.redirect301 (urlPathOf target ++ "/")) ∧
    (endsSlash (urlPathOf target) = true →
      ∀ c, fs (joinPath (translate (urlPathOf target)) "index.html") =
          some (FSEntry.file c) →
        doGET fs translate target = HandlerResult.html (serveHtmlResponse c false) ∧
        (serveHtmlResponse c false).status = 200 ∧
        doHEAD fs translate target = HandlerResult.html (serveHtmlResponse c true)) ∧
    (endsSlash (urlPathOf target) = true →
      ∀ c, (∀ c2, fs (joinPath (translate (urlPathOf target)) "index.html") ≠
          some (FSEntry.file c2)) →
        fs (joinPath (translate (urlPathOf target)) "index.htm") =
          some (FSEntry.file c) →
        doGET fs translate target = HandlerResult.html (serveHtmlResponse c false) ∧
        (serveHtmlResponse c false).status = 200 ∧
        doHEAD fs translate target = HandlerResult.html (serveHtmlResponse c true)) := by
  refine ⟨fun h3 => dispatchRedirect fs translate target h1 h2 h3,
    fun h3 c hidx => ?_, fun h3 c hno hidx => ?_⟩
  · obtain ⟨hg, hh⟩ := dispatchIndexHtml fs translate target c h1 h2 h3 hidx
    exact ⟨hg, rfl, hh⟩
  · obtain ⟨hg, hh⟩ := dispatchIndexHtm fs translate target c h1 h2 h3 hno hidx
    exact ⟨hg, rfl, hh⟩

/-- Witness for C8 (amended): `/sub` (a directory) redirects to `/sub/`;
`/sub/` serves its `index.html` through injection with status 200. -/
theorem c8_directory_redirect_witness :
    doGET fsSite id "/sub" = HandlerResult.redirect301 "/sub/" ∧
    doHEAD fsSite id "/sub" = HandlerResult.redirect301 "/sub/" ∧
    doGET fsSite id "/sub/" = HandlerResult.html (serveHtmlResponse sampleHtml false) ∧
    (serveHtmlResponse sampleHtml false).status = 200 ∧
    doHEAD fsSite id "/sub/" = HandlerResult.html (serveHtmlResponse sampleHtml true) := by
  obtain ⟨hg, hh⟩ :=
    (c8_directory_redirect fsSite id "/sub" (by decide) (by decide)).1 (by decide)
  obtain ⟨hg2, hst, hh2⟩ :=
    (c8_directory_redirect fsSite id "/sub/" (by decide) (by decide)).2.1
      (by decide) sampleHtml (by decide)
  have hloc : urlPathOf "/sub" ++ "/" = "/sub/" := by decide
  rw [hloc] at hg hh
  exact ⟨hg, hh, hg2, hst, hh2⟩

lemma urlPathOfAppendQuery (p q : String)
    (hp : ∀ c ∈ p.data, c ≠ '?' ∧ c ≠ '#') :
    urlPathOf (p ++ "?" ++ q) = p := by
  unfold urlPathOf
  rw [String.data_append, String.data_append]
  have hq : ("?" : String).data = ['?'] := rfl
  rw [hq, List.append_assoc, List.singleton_append]
  have hself : List.takeWhile (fun c => ¬ (c = '?' ∨ c = '#') : Char → Bool)
      p.data = p.data := by
    rw [List.takeWhile_eq_self_iff]
    intro x hx
    have hx2 := hp x hx
    simp [hx2.1, hx2.2]
  have hstop : List.takeWhile (fun c => ¬ (c = '?' ∨ c = '#') : Char → Bool)
      ('?' :: q.data) = [] := by
    simp [List.takeWhile]
  rw [List.takeWhile_append, hself, if_pos rfl, hstop, List.append_nil]

/-- C9 counterexample: the claim quantifies over every request with a query
string whose path names a directory without a trailing slash; with a
directory actually named `__livereload`, `GET /__livereload?inspect=1` is
answered with the SSE stream, not a 301. -/
theorem c9_counterexample :
    fsLr (id (urlPathOf "/__livereload?inspect=1")) = some FSEntry.dir ∧
    endsSlash (urlPathOf "/__livereload?inspect=1") = false ∧
    doGET fsLr id "/__livereload?inspect=1" = HandlerResult.livereload ∧
    doGET fsLr id "/__livereload?inspect=1" ≠
      HandlerResult.redirect301 (urlPathOf "/__livereload?inspect=1" ++ "/") := by
  refine ⟨by decide, by decide, by decide, by decide⟩

/-- C9 (amended): for every GET or HEAD request `p?q` whose path `p` (free
of `?`/`#`, not `/__livereload`) names a directory and lacks a trailing
slash, the 301 Location is the bare path plus `/` — the query string is
not carried over (the Location contains no `?` at all). -/
theorem c9_redirect_drops_query (fs : String → Option FSEntry)
    (translate : String → String) (p q : String)
    (hp : ∀ c ∈ p.data, c ≠ '?' ∧ c ≠ '#')
    (h1 : p ≠ "/__livereload")
    (h2 : fs (translate p) = some FSEntry.dir)
    (h3 : endsSlash p = false) :
    doGET fs translate (p ++ "?" ++ q) = HandlerResult.redirect301 (p ++ "/") ∧
    doHEAD fs translate (p ++ "?" ++ q) = HandlerResult.redirect301 (p ++ "/") ∧
    ∀ c ∈ (p ++ "/").data, c ≠ '?' := by
  have hu := urlPathOfAppendQuery p q hp
  obtain ⟨hg, hh⟩ := dispatchRedirect fs translate (p ++ "?" ++ q)
    (by rw [hu]; exact h1) (by rw [hu]; exact h2) (by rw [hu]; exact h3)
  rw [hu] at hg hh
  refine ⟨hg, hh, ?_⟩
  intro c hc
  rw [String.data_append] at hc
  rcases List.mem_append.mp hc with hc1 | hc1
  · exact (hp c hc1).1
  · have : c = '/' := by simpa using hc1
    rw [this]
    decide

/-- Witness for C9 (amended): `/sub?inspect=1` redirects to `/sub/` with
the query dropped. -/
theorem c9_redirect_drops_query_witness :
    doGET fsSite id ("/sub" ++ "?" ++ "inspect=1") =
      HandlerResult.redirect301 ("/sub" ++ "/") ∧
    doHEAD fsSite id ("/sub" ++ "?" ++ "inspect=1") =
      HandlerResult.redirect301 ("/sub" ++ "/") ∧
    ∀ c ∈ (("/sub" : String) ++ "/").data, c ≠ '?' :=
  c9_redirect_drops_query fsSite id "/sub" "inspect=1"
    (by decide) (by decide) (by decide) (by decide)

end DevServer
